import Mathlib

/-
Verification of the groppy concurrent repository-update engine
(src/main.rs) against its natural-language specification.

The git library (git2) is an external collaborator: each fallible call it
provides is modelled by an oracle field in `GitEnv`, while the on-disk
repository data that the program itself reads and writes (object store,
HEAD, working tree, remote-tracking state) is modelled explicitly in
`RepoState`.  The worker pool is sequentialised at task granularity: every
task is consumed exactly once by exactly one worker and every shared-counter
update is a single atomic increment, so each concurrent execution induces a
processing order of the form folded below.
-/

set_option autoImplicit false

namespace Groppy

/-! ### Exact model of the f64 percent computation (src/main.rs lines 57-61) -/

/-- Rounding a rational to the nearest integer, ties to even — the IEEE-754
default rounding used by Rust's f64 arithmetic. -/
def rne (x : ℚ) : ℤ :=
  if x - ⌊x⌋ < 1 / 2 then ⌊x⌋
  else if 1 / 2 < x - ⌊x⌋ then ⌊x⌋ + 1
  else if ⌊x⌋ % 2 = 0 then ⌊x⌋ else ⌊x⌋ + 1

/-- Rounding a nonnegative rational to the nearest IEEE-754 double: 53-bit
significand, round to nearest, ties to even.  All values arising in this
program are far inside the normal range, so exponent overflow and
subnormals never occur and are not modelled. -/
def fl (x : ℚ) : ℚ :=
  if x ≤ 0 then 0
  else (rne (x * (2 : ℚ) ^ ((52 : ℤ) - Int.log 2 x)) : ℚ) * (2 : ℚ) ^ (Int.log 2 x - (52 : ℤ))

/-- Model of `update_progress` (src/main.rs lines 57-61): the percent value
emitted through the OSC 9;4 terminal escape.  The expression
`(current as f64 / total as f64 * 100.0) as u32` is one correctly-rounded
division, one correctly-rounded multiplication, then truncation toward
zero; the usize-to-f64 conversions are exact because the counts are far
below 2^53. -/
def update_progress (current total : Nat) : Nat :=
  (⌊fl (fl ((current : ℚ) / (total : ℚ)) * 100)⌋).toNat

/-! ### Repository data model -/

/-- Commit identifiers (git OIDs), abstracted as naturals. -/
abbrev Oid := Nat

/-- A git tree: a finite list of (file path, blob identifier) entries. -/
abbrev Tree := List (String × Nat)

/-- Blob stored at a path in a tree (`none` when the path is absent). -/
def blobAt (t : Tree) (p : String) : Option Nat :=
  (t.find? (fun e => e.fst == p)).map (fun e => e.snd)

/-- Distinct paths whose entries differ between two trees: the deltas of
`diff_tree_to_tree` with default options, one delta per changed file. -/
def changedPaths (told tnew : Tree) : List String :=
  ((told.map Prod.fst) ++ (tnew.map Prod.fst)).dedup.filter
    (fun p => decide (blobAt told p ≠ blobAt tnew p))

/-- On-disk state of one repository: object store, the commit HEAD points
at, the working tree, the current branch name (the `shorthand` of HEAD),
and the remote-tracking state that `fetch` writes. -/
structure RepoState where
  commits : List (Oid × Tree)
  headOid : Oid
  worktree : Tree
  branchName : Option String
  fetched : Option Oid
deriving DecidableEq

/-- Commit lookup in the object store (`peel_to_commit` / `find_commit`). -/
def lookupTree (commits : List (Oid × Tree)) (o : Oid) : Option Tree :=
  (commits.find? (fun c => c.fst == o)).map (fun c => c.snd)

/-- Model of `repo.statuses` with untracked files included and ignored files
excluded (src/main.rs lines 94-99): the paths differing between the HEAD
tree and the working tree.  An extra working-tree entry is an untracked
file; ignored files are outside the modelled working tree. -/
def statusList (s : RepoState) : List String :=
  changedPaths ((lookupTree s.commits s.headOid).getD []) s.worktree

/-- Model of `is_repo_clean` (src/main.rs lines 94-101). -/
def is_repo_clean (s : RepoState) : Bool :=
  (statusList s).isEmpty

/-- Result of the `branch_upstream_name` call (src/main.rs lines 148-150)
as libgit2 reports it: an ENOTFOUND error when the branch has no configured
upstream, an error of any other class, or a name whose UTF-8 conversion,
reference lookup, or peel may still fail. -/
inductive UpstreamRes where
  | errNotFound
  | errOther (msg : String)
  | okInvalidUtf8
  | okUnresolvable (msg : String)
  | okOid (oid : Oid)
deriving DecidableEq

/-- Oracle for the external git operations of one task: how each fallible
call of the git library behaves, and what commit the remote serves. -/
structure GitEnv where
  openOk : Bool
  statusOk : Bool
  findRemoteOk : Bool
  fetchOk : Bool
  remoteHead : Oid
  upstream : UpstreamRes
  setTargetOk : Bool
  checkoutOk : Bool
  diffOk : Bool
deriving DecidableEq

/-- Terminal outcome of one task (spec section 3). -/
inductive Outcome where
  | updated (files_changed : Nat)
  | upToDate
  | unclean
  | noUpstream
  | error (detail : String)
deriving DecidableEq

/-- Detail string of the open failure (src/main.rs lines 108-109). -/
def openFailMsg : String := "Failed to open repository"

/-- Detail string of a `checkout_head` failure (src/main.rs line 173). -/
def checkoutFailMsg : String := "checkout_head failed"

/-- Detail string of a `diff_tree_to_tree` failure (src/main.rs line 179). -/
def diffFailMsg : String := "diff_tree_to_tree failed"

/-- Model of the body of `update_repo` (src/main.rs lines 103-192) without
the stats/progress bookkeeping of its first three lines, which lives in
`runTask` below.  Returns the terminal outcome and the repository state
left on disk.  Every `?` early return is an `Outcome.error`; the
`branch_upstream_name(..).ok()` call at lines 148-150 collapses both the
ENOTFOUND error and every other lookup error to `None`, hence both map to
the silent no-upstream return at lines 152-154. -/
def update_repo (env : GitEnv) (s : RepoState) : Outcome × RepoState :=
  if env.openOk = false then (.error openFailMsg, s)
  else if env.statusOk = false then (.error "status query failed", s)
  else if (statusList s).isEmpty = false then (.unclean, s)
  else
    match lookupTree s.commits s.headOid with
    | none => (.error "could not peel HEAD to a commit", s)
    | some oldTree =>
      if env.findRemoteOk = false then (.error "could not find remote origin", s)
      else if env.fetchOk = false then (.error "fetch failed", s)
      else
        let s1 : RepoState := { s with fetched := some env.remoteHead }
        match s1.branchName with
        | none => (.error "Could not get branch name", s1)
        | some _ =>
          match env.upstream with
          | .errNotFound => (.noUpstream, s1)
          | .errOther _ => (.noUpstream, s1)
          | .okInvalidUtf8 => (.error "Could not convert upstream name", s1)
          | .okUnresolvable m => (.error m, s1)
          | .okOid upstreamOid =>
            if s1.headOid == upstreamOid then (.upToDate, s1)
            else if env.setTargetOk = false then (.error "set_target failed", s1)
            else
              let s2 : RepoState := { s1 with headOid := upstreamOid }
              if env.checkoutOk = false then (.error checkoutFailMsg, s2)
              else
                match lookupTree s2.commits upstreamOid with
                | none => (.error checkoutFailMsg, s2)
                | some newTree =>
                  let s3 : RepoState := { s2 with worktree := newTree }
                  if env.diffOk = false then (.error diffFailMsg, s3)
                  else (.updated (changedPaths oldTree newTree).length, s3)

/-! ### Stats, progress, and the worker pool -/

/-- Model of `Stats` (src/main.rs lines 31-36). -/
structure Stats where
  checked : Nat
  updated : Nat
  unclean : Nat
  total : Nat
deriving DecidableEq

/-- Model of `Stats::new` (src/main.rs lines 39-46). -/
def Stats.new (total : Nat) : Stats :=
  ⟨0, 0, 0, total⟩

/-- Catppuccin red (src/main.rs line 14). -/
def RED : String := "\x1b[38;2;237;135;150m"

/-- Catppuccin green (src/main.rs line 15). -/
def GREEN : String := "\x1b[38;2;166;218;149m"

/-- Reset escape (src/main.rs line 17). -/
def RESET : String := "\x1b[0m"

/-- Lines printed for one task: the `pb.println` calls on Unclean and
Updated inside `update_repo` (src/main.rs lines 115-120 and 183-189) and
the worker's error line (line 242).  UpToDate and NoUpstream print
nothing. -/
def taskLines (path : String) (o : Outcome) : List String :=
  match o with
  | .unclean => [RED ++ "Repository not clean: " ++ path ++ RESET]
  | .updated n =>
      [GREEN ++ "Updated: " ++ path ++ " (" ++ toString n ++ " files changed)" ++ RESET]
  | .error d => ["Error updating " ++ path ++ ": " ++ d]
  | _ => []

/-- One queued task: the repository path, the oracle for its external git
calls, and its on-disk state. -/
structure Task where
  path : String
  env : GitEnv
  repo : RepoState
deriving DecidableEq

/-- Everything one worker-loop iteration produces for one task. -/
structure StepOut where
  outcome : Outcome
  final : RepoState
  lines : List String
  pct : Nat
deriving DecidableEq

/-- One iteration of the worker loop (src/main.rs lines 240-244) together
with the bookkeeping at the top of `update_repo` (lines 104-106) and the
counter increments at lines 114 and 182: bump `checked`, emit the percent,
run the state machine, bump `updated` or `unclean` per the outcome. -/
def runTask (st : Stats) (t : Task) : Stats × StepOut :=
  let checked := st.checked + 1
  let pct := update_progress checked st.total
  let r := update_repo t.env t.repo
  let st1 : Stats :=
    { st with
      checked := checked
      updated := match r.fst with | .updated _ => st.updated + 1 | _ => st.updated
      unclean := match r.fst with | .unclean => st.unclean + 1 | _ => st.unclean }
  (st1, ⟨r.fst, r.snd, taskLines t.path r.fst, pct⟩)

/-- The pool consuming the queue, sequentialised at task granularity. -/
def runFrom (st : Stats) : List Task → Stats × List StepOut
  | [] => (st, [])
  | t :: ts =>
    let r := runTask st t
    let rest := runFrom r.fst ts
    (rest.fst, r.snd :: rest.snd)

/-- A whole run (src/main.rs `main`, lines 208-253): `total` is fixed at
startup to the number of discovered tasks, the three counters start at
zero, and the queue is seeded once with every task. -/
def runEngine (ts : List Task) : Stats × List StepOut :=
  runFrom (Stats.new ts.length) ts

/-- Stats visible after the first `k` tasks have completed. -/
def runStats (ts : List Task) (k : Nat) : Stats :=
  (runFrom (Stats.new ts.length) (ts.take k)).fst

/-! ### Discovery -/

/-- The filesystem as discovery sees it: which entries exist, which of them
are directories, and each directory's immediate children as full paths. -/
structure FS where
  entries : List String
  isDirectory : String → Bool
  childList : String → List String

/-- Model of `is_git_repo` (src/main.rs lines 63-65): the path directly
contains an entry named `.git`; nothing inspects whether that entry is a
file or a directory. -/
def is_git_repo (fs : FS) (p : String) : Bool :=
  fs.entries.contains (p ++ "/.git")

/-- Model of `fs::read_dir`: succeeds on directories, errs otherwise. -/
def read_dir (fs : FS) (p : String) : Option (List String) :=
  if fs.isDirectory p then some (fs.childList p) else none

/-- Model of `find_repos` (src/main.rs lines 67-92): skip non-existent
inputs, test the input itself, then scan its immediate children only. -/
def find_repos (fs : FS) (directories : List String) : List String :=
  directories.foldl
    (fun repos dir =>
      if fs.entries.contains dir = false then repos
      else
        let repos1 := if is_git_repo fs dir then repos ++ [dir] else repos
        match read_dir fs dir with
        | some es => repos1 ++ es.filter (fun p => fs.isDirectory p && is_git_repo fs p)
        | none => repos1)
    []

/-- Contribution of a single input directory to `find_repos`. -/
def repos_of_dir (fs : FS) (dir : String) : List String :=
  if fs.entries.contains dir = false then []
  else
    (if is_git_repo fs dir then [dir] else []) ++
      match read_dir fs dir with
      | some es => es.filter (fun p => fs.isDirectory p && is_git_repo fs p)
      | none => []

/-! ### Concrete instances used by witnesses and counterexamples -/

/-- Tree of the pre-update commit in the running example. -/
def oldTreeX : Tree := [("a.txt", 1), ("b.txt", 2)]

/-- Tree of the upstream commit in the running example: `b.txt` modified and
`c.txt` added, so exactly two file paths differ from `oldTreeX`. -/
def newTreeX : Tree := [("a.txt", 1), ("b.txt", 3), ("c.txt", 4)]

/-- A clean repository sitting on commit 10 with upstream commit 20 known. -/
def repoX : RepoState := ⟨[(10, oldTreeX), (20, newTreeX)], 10, oldTreeX, some "main", none⟩

/-- An oracle under which every external git call succeeds and the upstream
resolves to commit 20. -/
def envOk : GitEnv := ⟨true, true, true, true, 20, .okOid 20, true, true, true⟩

/-- Same oracle but `checkout_head` fails. -/
def envCheckoutFail : GitEnv := { envOk with checkoutOk := false }

/-- Same oracle but `branch_upstream_name` fails with an error that is not
ENOTFOUND (for example a branch with an invalid upstream configuration). -/
def envUpstreamErr : GitEnv := { envOk with upstream := .errOther "invalid upstream configuration" }

/-- Same oracle but the upstream already equals HEAD (commit 10). -/
def envUpToDate : GitEnv := { envOk with upstream := .okOid 10 }

/-- Same oracle but opening the repository fails (invalid metadata). -/
def envOpenFail : GitEnv := { envOk with openOk := false }

/-- The example repository with one untracked file and no other changes. -/
def repoDirty : RepoState := { repoX with worktree := oldTreeX ++ [("untracked.txt", 9)] }

/-- Filesystem for the discovery scenario: input `A` is itself a repository
root, input `B` contains a child repository root `B/x` and a non-repository
child `B/y`, and input `C` does not exist. -/
def fsDemo : FS :=
  ⟨["A", "B", "A/.git", "B/x", "B/y", "B/x/.git"],
   fun p => ["A", "B", "B/x", "B/y"].contains p,
   fun p => if p = "B" then ["B/x", "B/y"] else []⟩

/-- All tasks ready for a second run: clean, fetchable, upstream = HEAD. -/
def taskUpToDate : Task := ⟨"/repos/a", envUpToDate, repoX⟩

/-- A task whose upstream-name lookup fails with a non-ENOTFOUND error. -/
def taskUpstreamErr : Task := ⟨"/repos/a", envUpstreamErr, repoX⟩

/-- A happy-path task used for order-independence witnesses. -/
def taskOkX : Task := ⟨"/repos/a", envOk, repoX⟩

/-- A dirty-repository task used for order-independence witnesses. -/
def taskDirtyX : Task := ⟨"/repos/b", envOk, repoDirty⟩

/-- A task whose repository metadata cannot be opened. -/
def taskOpenFail : Task := ⟨"/repos/c", envOpenFail, repoX⟩

/-- Predicate of C6: the state a repository is in right after a run has
fast-forwarded it, with no intervening local edits or remote changes — the
working tree is clean and the configured upstream resolves to the commit
HEAD already points at, with every external call succeeding. -/
def readyForSecondRun (t : Task) : Prop :=
  t.env.openOk = true ∧ t.env.statusOk = true ∧ is_repo_clean t.repo = true ∧
  (lookupTree t.repo.commits t.repo.headOid).isSome = true ∧
  t.env.findRemoteOk = true ∧ t.env.fetchOk = true ∧
  t.repo.branchName.isSome = true ∧ t.env.upstream = .okOid t.repo.headOid

instance (t : Task) : Decidable (readyForSecondRun t) := by
  unfold readyForSecondRun
  infer_instance

/-- Percent-complete signals of one run: the reset emitted before work
starts (src/main.rs line 224) followed by the per-dequeue emissions. -/
def enginePercents (ts : List Task) : List Nat :=
  update_progress 0 ts.length :: (runEngine ts).snd.map StepOut.pct

/-! ### Worker-loop bookkeeping lemmas -/

theorem runTask_fst_checked (st : Stats) (t : Task) :
    (runTask st t).fst.checked = st.checked + 1 := rfl

theorem runTask_fst_total (st : Stats) (t : Task) :
    (runTask st t).fst.total = st.total := rfl

theorem runTask_updated_bounds (st : Stats) (t : Task) :
    st.updated ≤ (runTask st t).fst.updated ∧ (runTask st t).fst.updated ≤ st.updated + 1 := by
  cases h : (update_repo t.env t.repo).fst <;> simp [runTask, h]

theorem runTask_unclean_bounds (st : Stats) (t : Task) :
    st.unclean ≤ (runTask st t).fst.unclean ∧ (runTask st t).fst.unclean ≤ st.unclean + 1 := by
  cases h : (update_repo t.env t.repo).fst <;> simp [runTask, h]

theorem runTask_sum_le (st : Stats) (t : Task) :
    (runTask st t).fst.updated + (runTask st t).fst.unclean ≤ st.updated + st.unclean + 1 := by
  cases h : (update_repo t.env t.repo).fst <;> simp [runTask, h] <;> omega

theorem runFrom_fst_total (st : Stats) (ts : List Task) :
    (runFrom st ts).fst.total = st.total := by
  induction ts generalizing st with
  | nil => rfl
  | cons t ts ih => simpa [runFrom, runTask_fst_total] using ih (runTask st t).fst

theorem runFrom_fst_checked (st : Stats) (ts : List Task) :
    (runFrom st ts).fst.checked = st.checked + ts.length := by
  induction ts generalizing st with
  | nil => rfl
  | cons t ts ih =>
    have := ih (runTask st t).fst
    simp only [runFrom] at this ⊢
    rw [this, runTask_fst_checked, List.length_cons]
    omega

theorem runFrom_inv (st : Stats) (ts : List Task)
    (h : st.updated + st.unclean ≤ st.checked) :
    (runFrom st ts).fst.updated + (runFrom st ts).fst.unclean ≤ (runFrom st ts).fst.checked := by
  induction ts generalizing st with
  | nil => exact h
  | cons t ts ih =>
    have hstep : (runTask st t).fst.updated + (runTask st t).fst.unclean ≤
        (runTask st t).fst.checked := by
      have := runTask_sum_le st t
      rw [runTask_fst_checked]
      omega
    simpa [runFrom] using ih (runTask st t).fst hstep

theorem runFrom_append (st : Stats) (l₁ l₂ : List Task) :
    runFrom st (l₁ ++ l₂) =
      ((runFrom (runFrom st l₁).fst l₂).fst,
       (runFrom st l₁).snd ++ (runFrom (runFrom st l₁).fst l₂).snd) := by
  induction l₁ generalizing st with
  | nil => simp [runFrom]
  | cons t l₁ ih => simp [runFrom, ih (runTask st t).fst]

theorem runFrom_updated_mono (st : Stats) (ts : List Task) :
    st.updated ≤ (runFrom st ts).fst.updated := by
  induction ts generalizing st with
  | nil => exact Nat.le_refl _
  | cons t ts ih =>
    have h1 := (runTask_updated_bounds st t).1
    have h2 := ih (runTask st t).fst
    simp only [runFrom]
    omega

theorem runFrom_unclean_mono (st : Stats) (ts : List Task) :
    st.unclean ≤ (runFrom st ts).fst.unclean := by
  induction ts generalizing st with
  | nil => exact Nat.le_refl _
  | cons t ts ih =>
    have h1 := (runTask_unclean_bounds st t).1
    have h2 := ih (runTask st t).fst
    simp only [runFrom]
    omega

theorem runFrom_outcomes (st : Stats) (ts : List Task) :
    (runFrom st ts).snd.map StepOut.outcome =
      ts.map (fun t => (update_repo t.env t.repo).fst) := by
  induction ts generalizing st with
  | nil => rfl
  | cons t ts ih => simp [runFrom, runTask, ih]

theorem runFrom_snd_length (st : Stats) (ts : List Task) :
    (runFrom st ts).snd.length = ts.length := by
  induction ts generalizing st with
  | nil => rfl
  | cons t ts ih => simp [runFrom, ih]

/-- C1.  For every run of the engine: `total` is fixed at startup to the
number of discovered tasks; at any point (after any prefix of `k` completed
tasks) `checked ≤ total` and `updated + unclean ≤ checked`; after all
workers have joined `checked = total`; and each of the three counters is
only ever incremented (monotone from prefix to prefix). -/
theorem groppy_C1 (ts : List Task) (k : Nat) :
    (runStats ts k).total = ts.length ∧
    (runStats ts k).checked ≤ (runStats ts k).total ∧
    (runStats ts k).updated + (runStats ts k).unclean ≤ (runStats ts k).checked ∧
    (runStats ts ts.length).checked = ts.length ∧
    (runStats ts k).checked ≤ (runStats ts (k + 1)).checked ∧
    (runStats ts k).updated ≤ (runStats ts (k + 1)).updated ∧
    (runStats ts k).unclean ≤ (runStats ts (k + 1)).unclean := by
  have htotal : ∀ m, (runStats ts m).total = ts.length := fun m => by
    simpa [runStats, Stats.new] using runFrom_fst_total (Stats.new ts.length) (ts.take m)
  have hchecked : ∀ m, (runStats ts m).checked = (ts.take m).length := fun m => by
    simpa [runStats, Stats.new] using runFrom_fst_checked (Stats.new ts.length) (ts.take m)
  have hmono : ∀ m, (runStats ts m).checked ≤ (runStats ts (m + 1)).checked ∧
      (runStats ts m).updated ≤ (runStats ts (m + 1)).updated ∧
      (runStats ts m).unclean ≤ (runStats ts (m + 1)).unclean := by
    intro m
    rcases le_or_lt ts.length m with hm | hm
    · have heq : ts.take (m + 1) = ts.take m := by
        rw [List.take_of_length_le hm, List.take_of_length_le (by omega)]
      simp [runStats, heq]
    · have hsucc : ts.take (m + 1) = ts.take m ++ [ts[m]] := by
        rw [List.take_succ, List.getElem?_eq_getElem hm]
        rfl
      have hstep : runStats ts (m + 1) = (runTask (runStats ts m) ts[m]).fst := by
        simp only [runStats, hsucc, runFrom_append, runFrom]
      rw [hstep, runTask_fst_checked]
      exact ⟨Nat.le_succ _, (runTask_updated_bounds _ _).1, (runTask_unclean_bounds _ _).1⟩
  refine ⟨htotal k, ?_, ?_, ?_, (hmono k).1, (hmono k).2.1, (hmono k).2.2⟩
  · rw [htotal k, hchecked k, List.length_take]
    omega
  · simpa [runStats] using runFrom_inv (Stats.new ts.length) (ts.take k) (by simp [Stats.new])
  · rw [hchecked ts.length, List.take_length]

/-! ### Rounding lemmas for the percent computation -/

theorem rne_ge_floor (x : ℚ) : ⌊x⌋ ≤ rne x := by
  unfold rne
  split_ifs <;> omega

theorem rne_le_floor_add_one (x : ℚ) : rne x ≤ ⌊x⌋ + 1 := by
  unfold rne
  split_ifs <;> omega

theorem rne_mono {x y : ℚ} (h : x ≤ y) : rne x ≤ rne y := by
  rcases lt_or_le ⌊x⌋ ⌊y⌋ with hf | hf
  · calc rne x ≤ ⌊x⌋ + 1 := rne_le_floor_add_one x
      _ ≤ ⌊y⌋ := hf
      _ ≤ rne y := rne_ge_floor y
  · have hfe : ⌊x⌋ = ⌊y⌋ := le_antisymm (Int.floor_le_floor h) hf
    unfold rne
    rw [hfe]
    have hxy : x - (⌊y⌋ : ℚ) ≤ y - (⌊y⌋ : ℚ) := by linarith
    split_ifs <;> first | omega | linarith

theorem rne_nonneg {x : ℚ} (hx : 0 ≤ x) : 0 ≤ rne x :=
  le_trans (Int.floor_nonneg.mpr hx) (rne_ge_floor x)

theorem fl_nonneg (x : ℚ) : 0 ≤ fl x := by
  unfold fl
  split_ifs with h
  · exact le_refl 0
  · push_neg at h
    have harg : (0:ℚ) ≤ x * (2:ℚ) ^ ((52:ℤ) - Int.log 2 x) :=
      mul_nonneg h.le (zpow_pos (by norm_num : (0:ℚ) < 2) _).le
    have hr : (0:ℤ) ≤ rne (x * (2:ℚ) ^ ((52:ℤ) - Int.log 2 x)) := rne_nonneg harg
    exact mul_nonneg (by exact_mod_cast hr) (zpow_pos (by norm_num : (0:ℚ) < 2) _).le

theorem fl_le_zpow_succ {x : ℚ} (hx : 0 < x) : fl x ≤ (2:ℚ) ^ (Int.log 2 x + 1) := by
  unfold fl
  rw [if_neg (not_le.mpr hx)]
  have hlt : x < (2:ℚ) ^ (Int.log 2 x + 1) := Int.lt_zpow_succ_log_self (by norm_num) x
  have harg : x * (2:ℚ) ^ ((52:ℤ) - Int.log 2 x) < 9007199254740992 := by
    calc x * (2:ℚ) ^ ((52:ℤ) - Int.log 2 x)
        < (2:ℚ) ^ (Int.log 2 x + 1) * (2:ℚ) ^ ((52:ℤ) - Int.log 2 x) :=
          mul_lt_mul_of_pos_right hlt (zpow_pos (by norm_num) _)
      _ = (2:ℚ) ^ ((53:ℤ)) := by
          rw [← zpow_add₀ (by norm_num : (2:ℚ) ≠ 0)]
          congr 1
          ring
      _ = 9007199254740992 := by norm_num
  have hfloor : ⌊x * (2:ℚ) ^ ((52:ℤ) - Int.log 2 x)⌋ < 9007199254740992 := by
    rw [Int.floor_lt]
    exact_mod_cast harg
  have hrle : rne (x * (2:ℚ) ^ ((52:ℤ) - Int.log 2 x)) ≤ 9007199254740992 := by
    have := rne_le_floor_add_one (x * (2:ℚ) ^ ((52:ℤ) - Int.log 2 x))
    omega
  calc (rne (x * (2:ℚ) ^ ((52:ℤ) - Int.log 2 x)) : ℚ) * (2:ℚ) ^ (Int.log 2 x - 52)
      ≤ (9007199254740992:ℚ) * (2:ℚ) ^ (Int.log 2 x - 52) :=
        mul_le_mul_of_nonneg_right (by exact_mod_cast hrle) (zpow_pos (by norm_num) _).le
    _ = (2:ℚ) ^ (Int.log 2 x + 1) := by
        rw [show (9007199254740992:ℚ) = (2:ℚ) ^ ((53:ℤ)) from by norm_num,
          ← zpow_add₀ (by norm_num : (2:ℚ) ≠ 0)]
        congr 1
        ring

theorem zpow_log_le_fl {x : ℚ} (hx : 0 < x) : (2:ℚ) ^ (Int.log 2 x) ≤ fl x := by
  unfold fl
  rw [if_neg (not_le.mpr hx)]
  have hle : (2:ℚ) ^ (Int.log 2 x) ≤ x := Int.zpow_log_le_self (by norm_num) hx
  have harg : (4503599627370496:ℚ) ≤ x * (2:ℚ) ^ ((52:ℤ) - Int.log 2 x) := by
    calc (4503599627370496:ℚ)
        = (2:ℚ) ^ ((52:ℤ)) := by norm_num
      _ = (2:ℚ) ^ (Int.log 2 x) * (2:ℚ) ^ ((52:ℤ) - Int.log 2 x) := by
          rw [← zpow_add₀ (by norm_num : (2:ℚ) ≠ 0)]
          congr 1
          ring
      _ ≤ x * (2:ℚ) ^ ((52:ℤ) - Int.log 2 x) :=
          mul_le_mul_of_nonneg_right hle (zpow_pos (by norm_num) _).le
  have hr : (4503599627370496:ℤ) ≤ rne (x * (2:ℚ) ^ ((52:ℤ) - Int.log 2 x)) := by
    have hfl : (4503599627370496:ℤ) ≤ ⌊x * (2:ℚ) ^ ((52:ℤ) - Int.log 2 x)⌋ := by
      rw [Int.le_floor]
      exact_mod_cast harg
    exact le_trans hfl (rne_ge_floor _)
  calc (2:ℚ) ^ (Int.log 2 x)
      = (4503599627370496:ℚ) * (2:ℚ) ^ (Int.log 2 x - 52) := by
        rw [show (4503599627370496:ℚ) = (2:ℚ) ^ ((52:ℤ)) from by norm_num,
          ← zpow_add₀ (by norm_num : (2:ℚ) ≠ 0)]
        congr 1
        ring
    _ ≤ (rne (x * (2:ℚ) ^ ((52:ℤ) - Int.log 2 x)) : ℚ) * (2:ℚ) ^ (Int.log 2 x - 52) :=
        mul_le_mul_of_nonneg_right (by exact_mod_cast hr) (zpow_pos (by norm_num) _).le

theorem fl_mono {x y : ℚ} (hx : 0 ≤ x) (h : x ≤ y) : fl x ≤ fl y := by
  rcases eq_or_lt_of_le hx with hx0 | hx0
  · have hfx : fl x = 0 := by
      unfold fl
      rw [if_pos (le_of_eq hx0.symm)]
    rw [hfx]
    exact fl_nonneg y
  · have hy0 : 0 < y := lt_of_lt_of_le hx0 h
    have hE : Int.log 2 x ≤ Int.log 2 y := Int.log_mono_right hx0 h
    rcases eq_or_lt_of_le hE with hEe | hElt
    · unfold fl
      rw [if_neg (not_le.mpr hx0), if_neg (not_le.mpr hy0), ← hEe]
      refine mul_le_mul_of_nonneg_right ?_ (zpow_pos (by norm_num) _).le
      exact_mod_cast rne_mono
        (mul_le_mul_of_nonneg_right h (zpow_pos (by norm_num : (0:ℚ) < 2) _).le)
    · calc fl x ≤ (2:ℚ) ^ (Int.log 2 x + 1) := fl_le_zpow_succ hx0
        _ ≤ (2:ℚ) ^ (Int.log 2 y) := zpow_le_zpow_right₀ (by norm_num) (by omega)
        _ ≤ fl y := zpow_log_le_fl hy0

/-! ### Evaluation lemmas for concrete floating-point values -/

theorem int_log_eq {r : ℚ} {E : ℤ} (hr : 0 < r) (h1 : (2:ℚ) ^ E ≤ r)
    (h2 : r < (2:ℚ) ^ (E + 1)) : Int.log 2 r = E := by
  have hle : E ≤ Int.log 2 r := (Int.zpow_le_iff_le_log (by norm_num) hr).mp h1
  have hlt : Int.log 2 r < E + 1 := (Int.lt_zpow_iff_log_lt (by norm_num) hr).mp h2
  omega

theorem rne_eq_low {x : ℚ} {n : ℤ} (h1 : (n:ℚ) ≤ x) (h2 : x - n < 1/2) : rne x = n := by
  have hfl : ⌊x⌋ = n := Int.floor_eq_iff.mpr ⟨h1, by linarith⟩
  unfold rne
  rw [hfl]
  rw [if_pos h2]

theorem fl_eval {x : ℚ} {E m : ℤ} (hx : 0 < x) (hE : Int.log 2 x = E)
    (hm : rne (x * (2:ℚ) ^ ((52:ℤ) - E)) = m) : fl x = (m:ℚ) * (2:ℚ) ^ (E - 52) := by
  unfold fl
  rw [if_neg (not_le.mpr hx), hE, hm]

theorem fl_one : fl 1 = 1 := by
  have hE : Int.log 2 (1:ℚ) = 0 := Int.log_one_right 2
  have hm : rne ((1:ℚ) * (2:ℚ) ^ ((52:ℤ) - 0)) = 4503599627370496 := by
    apply rne_eq_low <;> norm_num
  rw [fl_eval (by norm_num) hE hm]
  norm_num

theorem fl_100 : fl 100 = 100 := by
  have hE : Int.log 2 (100:ℚ) = 6 := int_log_eq (by norm_num) (by norm_num) (by norm_num)
  have hm : rne ((100:ℚ) * (2:ℚ) ^ ((52:ℤ) - 6)) = 7036874417766400 := by
    apply rne_eq_low <;> norm_num
  rw [fl_eval (by norm_num) hE hm]
  norm_num

/-! ### Percent-computation facts -/

theorem update_progress_zero (t : Nat) : update_progress 0 t = 0 := by
  have h : fl ((0:ℚ)) = 0 := by
    unfold fl
    rw [if_pos (le_refl 0)]
  simp [update_progress, h]

theorem update_progress_le_100 {c t : Nat} (hct : c ≤ t) : update_progress c t ≤ 100 := by
  rcases Nat.eq_zero_or_pos t with ht | ht
  · subst ht
    rw [Nat.le_zero.mp hct, update_progress_zero]
    omega
  · have ht' : (0:ℚ) < t := by exact_mod_cast ht
    have h0 : (0:ℚ) ≤ (c:ℚ)/t := div_nonneg (by positivity) ht'.le
    have hdiv : (c:ℚ)/t ≤ 1 := (div_le_one ht').mpr (by exact_mod_cast hct)
    have h1 : fl ((c:ℚ)/t) ≤ 1 := by
      have := fl_mono h0 hdiv
      rwa [fl_one] at this
    have h1' : fl ((c:ℚ)/t) * 100 ≤ 100 := by linarith
    have h2 : fl (fl ((c:ℚ)/t) * 100) ≤ 100 := by
      have := fl_mono (mul_nonneg (fl_nonneg _) (by norm_num)) h1'
      rwa [fl_100] at this
    have h3 : ⌊fl (fl ((c:ℚ)/t) * 100)⌋ ≤ 100 := by
      have := Int.floor_le_floor h2
      simpa using this
    unfold update_progress
    exact Int.toNat_le.mpr (by exact_mod_cast h3)

theorem update_progress_mono {c c' : Nat} (t : Nat) (h : c ≤ c') :
    update_progress c t ≤ update_progress c' t := by
  have hdiv : (c:ℚ)/t ≤ (c':ℚ)/t := by
    rcases Nat.eq_zero_or_pos t with ht | ht
    · subst ht
      simp
    · have ht' : (0:ℚ) < t := by exact_mod_cast ht
      exact (div_le_div_iff_of_pos_right ht').mpr (by exact_mod_cast h)
  have h1 : fl ((c:ℚ)/t) ≤ fl ((c':ℚ)/t) :=
    fl_mono (div_nonneg (by positivity) (by positivity)) hdiv
  have h2 : fl ((c:ℚ)/t) * 100 ≤ fl ((c':ℚ)/t) * 100 := by linarith
  have h3 : fl (fl ((c:ℚ)/t) * 100) ≤ fl (fl ((c':ℚ)/t) * 100) :=
    fl_mono (mul_nonneg (fl_nonneg _) (by norm_num)) h2
  unfold update_progress
  exact Int.toNat_le_toNat (Int.floor_le_floor h3)

theorem runFrom_pcts (st : Stats) (ts : List Task) :
    (runFrom st ts).snd.map StepOut.pct =
      (List.range ts.length).map (fun i => update_progress (st.checked + i + 1) st.total) := by
  induction ts generalizing st with
  | nil => rfl
  | cons t ts ih =>
    have hfun : ∀ i : Nat, st.checked + 1 + i + 1 = st.checked + (i + 1) + 1 := fun i => by omega
    simp only [runFrom, List.map_cons, List.length_cons, List.range_succ_eq_map,
      List.map_map, ih, runTask_fst_checked, runTask_fst_total]
    refine List.cons_eq_cons.mpr ⟨rfl, ?_⟩
    refine List.map_congr_left (fun i _ => ?_)
    simp only [Function.comp_apply, Nat.succ_eq_add_one]
    rw [hfun i]

/-- C8, amended.  Each time a task is dequeued the engine emits the percent
value `update_progress checked total` — the exact value of the truncated
f64 computation `(checked as f64 / total as f64 * 100.0) as u32`, which can
differ from the integer quotient `checked*100/total` (see the
counterexample) — where the `k`-th dequeue observes `checked = k`; over a
run (initial reset signal included) the emitted values are monotonically
non-decreasing and always lie in `0..100`, and `total ≥ 1` whenever a
signal is emitted because `main` returns before emitting anything when no
repositories are discovered. -/
theorem groppy_C8 (ts : List Task) (h : 0 < ts.length) :
    (runEngine ts).snd.map StepOut.pct =
      (List.range ts.length).map (fun i => update_progress (i + 1) ts.length) ∧
    List.Chain' (fun a b => a ≤ b) (enginePercents ts) ∧
    (∀ p ∈ enginePercents ts, p ≤ 100) := by
  have hmap : (runEngine ts).snd.map StepOut.pct =
      (List.range ts.length).map (fun i => update_progress (i + 1) ts.length) := by
    have := runFrom_pcts (Stats.new ts.length) ts
    simpa [runEngine, Stats.new] using this
  refine ⟨hmap, ?_, ?_⟩
  · apply List.Pairwise.chain'
    unfold enginePercents
    refine List.pairwise_cons.mpr ⟨?_, ?_⟩
    · intro b hb
      rw [update_progress_zero]
      exact Nat.zero_le b
    · rw [hmap]
      refine List.pairwise_map.mpr ?_
      refine List.Pairwise.imp ?_ (List.pairwise_lt_range ts.length)
      intro i j hij
      exact update_progress_mono ts.length (by omega)
  · intro p hp
    rcases List.mem_cons.mp hp with hp0 | hpm
    · rw [hp0, update_progress_zero]
      omega
    · rw [hmap] at hpm
      obtain ⟨i, hi, rfl⟩ := List.mem_map.mp hpm
      exact update_progress_le_100 (by
        have := List.mem_range.mp hi
        omega)

/-- Counterexample to C8 as stated: at `checked = 29`, `total = 100` the
code emits 28 (the f64 product `0.29 * 100.0` is `28.999999999999996`,
truncated to 28), while the claimed formula `checked*100/total` gives 29. -/
theorem groppy_C8_counterexample :
    update_progress 29 100 = 28 ∧ (29:ℕ) * 100 / 100 = 29 ∧
    update_progress 29 100 ≠ 29 * 100 / 100 := by
  have h28 : update_progress 29 100 = 28 := by
    have hE1 : Int.log 2 ((29:ℚ)/100) = -2 :=
      int_log_eq (by norm_num) (by norm_num) (by norm_num)
    have hm1 : rne ((29:ℚ)/100 * (2:ℚ) ^ ((52:ℤ) - (-2))) = 5224175567749775 := by
      apply rne_eq_low <;> norm_num
    have hfl1 : fl ((29:ℚ)/100) = (5224175567749775:ℚ) * (2:ℚ) ^ ((-2:ℤ) - 52) :=
      fl_eval (by norm_num) hE1 hm1
    have hx2 : fl ((29:ℚ)/100) * 100 = (130604389193744375:ℚ) * (2:ℚ) ^ ((-52:ℤ)) := by
      rw [hfl1]
      norm_num
    have hE2 : Int.log 2 ((130604389193744375:ℚ) * (2:ℚ) ^ ((-52:ℤ))) = 4 :=
      int_log_eq (by norm_num) (by norm_num) (by norm_num)
    have hm2 : rne ((130604389193744375:ℚ) * (2:ℚ) ^ ((-52:ℤ)) * (2:ℚ) ^ ((52:ℤ) - 4)) =
        8162774324609023 := by
      apply rne_eq_low <;> norm_num
    have hfl2 : fl ((130604389193744375:ℚ) * (2:ℚ) ^ ((-52:ℤ))) =
        (8162774324609023:ℚ) * (2:ℚ) ^ ((4:ℤ) - 52) :=
      fl_eval (by norm_num) hE2 hm2
    have hcast : ((29:ℕ):ℚ) / ((100:ℕ):ℚ) = (29:ℚ)/100 := by norm_num
    unfold update_progress
    rw [hcast, hx2, hfl2]
    have hfloor : ⌊(8162774324609023:ℚ) * (2:ℚ) ^ ((4:ℤ) - 52)⌋ = 28 := by
      rw [Int.floor_eq_iff]
      constructor <;> norm_num
    rw [hfloor]
    rfl
  refine ⟨h28, by norm_num, ?_⟩
  rw [h28]
  norm_num

/-- Witness for C8: the amended theorem applied to a concrete one-task
run. -/
theorem groppy_C8_witness :
    0 < [taskOkX].length ∧
    ((runEngine [taskOkX]).snd.map StepOut.pct =
      (List.range [taskOkX].length).map (fun i => update_progress (i + 1) [taskOkX].length) ∧
    List.Chain' (fun a b => a ≤ b) (enginePercents [taskOkX]) ∧
    (∀ p ∈ enginePercents [taskOkX], p ≤ 100)) :=
  ⟨by decide, groppy_C8 [taskOkX] (by decide)⟩

set_option maxHeartbeats 1600000 in
/-- C2, amended.  Unclean, NoUpstream and UpToDate outcomes leave HEAD and
the working tree unchanged (the fetch-written remote-tracking state is the
only difference on the paths that reach the fetch); an Updated outcome
moves HEAD exactly once, to the resolved upstream commit, and checks out
that commit's tree; an Error outcome also leaves HEAD and working tree
unchanged, except when the failure happens at the `checkout_head` or
`diff_tree_to_tree` step — those run after `set_target`, so HEAD (and, for
the diff step, the working tree) has already been mutated. -/
theorem groppy_C2 :
    (∀ env s s', (update_repo env s = (Outcome.unclean, s') ∨
        update_repo env s = (Outcome.noUpstream, s') ∨
        update_repo env s = (Outcome.upToDate, s')) →
      s'.headOid = s.headOid ∧ s'.worktree = s.worktree) ∧
    (∀ env s s' n, update_repo env s = (Outcome.updated n, s') →
      ∃ u, env.upstream = UpstreamRes.okOid u ∧ s'.headOid = u ∧ s.headOid ≠ u ∧
        lookupTree s.commits u = some s'.worktree) ∧
    (∀ env s s' d, update_repo env s = (Outcome.error d, s') →
      (s'.headOid = s.headOid ∧ s'.worktree = s.worktree) ∨
        d = checkoutFailMsg ∨ d = diffFailMsg) := by
  refine ⟨?_, ?_, ?_⟩
  · intro env s s' h
    rcases h with h | h | h
    all_goals (
      simp only [update_repo] at h
      repeat' (split at h)
      all_goals rw [Prod.mk.injEq] at h
      all_goals obtain ⟨h1, h2⟩ := h
      all_goals subst h2
      all_goals simp_all)
  · intro env s s' n h
    simp only [update_repo] at h
    repeat' (split at h)
    all_goals rw [Prod.mk.injEq] at h
    all_goals obtain ⟨h1, h2⟩ := h
    all_goals subst h2
    all_goals simp_all
  · intro env s s' d h
    simp only [update_repo] at h
    repeat' (split at h)
    all_goals rw [Prod.mk.injEq] at h
    all_goals obtain ⟨h1, h2⟩ := h
    all_goals subst h2
    all_goals simp_all

set_option maxHeartbeats 1600000 in
/-- Counterexample to C2 as stated: when `checkout_head` fails after the
reference update succeeded, the outcome is Error, yet HEAD has been moved
from commit 10 to commit 20 — an Error task whose on-disk HEAD state
changed. -/
theorem groppy_C2_counterexample :
    (update_repo envCheckoutFail repoX).fst = Outcome.error checkoutFailMsg ∧
    (update_repo envCheckoutFail repoX).snd.headOid = 20 ∧
    repoX.headOid = 10 := by
  refine ⟨by decide, by decide, rfl⟩

set_option maxHeartbeats 1600000 in
/-- Witness for C2: the amended theorem applied to a concrete unclean task
(state fully unchanged) and to a concrete updated task. -/
theorem groppy_C2_witness :
    ((update_repo envOk repoDirty).snd.headOid = repoDirty.headOid ∧
     (update_repo envOk repoDirty).snd.worktree = repoDirty.worktree) ∧
    (∃ u, envOk.upstream = UpstreamRes.okOid u ∧
      (update_repo envOk repoX).snd.headOid = u ∧ repoX.headOid ≠ u ∧
      lookupTree repoX.commits u = some (update_repo envOk repoX).snd.worktree) :=
  ⟨groppy_C2.1 envOk repoDirty _ (Or.inl (by decide)),
   groppy_C2.2.1 envOk repoX _ 2 (by decide)⟩

set_option maxHeartbeats 1600000 in
/-- C3.  After an Updated outcome the repository's HEAD equals the
upstream commit identifier observed at resolution time, and the reported
`files_changed` is the number of distinct file paths differing between the
tree of the pre-update HEAD commit and the tree of the post-update HEAD
commit. -/
theorem groppy_C3 (env : GitEnv) (s s' : RepoState) (n : Nat)
    (h : update_repo env s = (Outcome.updated n, s')) :
    ∃ u told tnew,
      env.upstream = UpstreamRes.okOid u ∧
      s'.headOid = u ∧
      lookupTree s.commits s.headOid = some told ∧
      lookupTree s'.commits s'.headOid = some tnew ∧
      s'.worktree = tnew ∧
      n = (changedPaths told tnew).length := by
  simp only [update_repo] at h
  repeat' (split at h)
  all_goals rw [Prod.mk.injEq] at h
  all_goals obtain ⟨h1, h2⟩ := h
  all_goals subst h2
  all_goals simp_all

set_option maxHeartbeats 1600000 in
/-- Witness for C3: the theorem applied to a run that fast-forwards from
commit 10 to commit 20, where exactly two file paths differ. -/
theorem groppy_C3_witness :
    update_repo envOk repoX = (Outcome.updated 2, (update_repo envOk repoX).snd) ∧
    (∃ u told tnew,
      envOk.upstream = UpstreamRes.okOid u ∧
      (update_repo envOk repoX).snd.headOid = u ∧
      lookupTree repoX.commits repoX.headOid = some told ∧
      lookupTree (update_repo envOk repoX).snd.commits
        (update_repo envOk repoX).snd.headOid = some tnew ∧
      (update_repo envOk repoX).snd.worktree = tnew ∧
      2 = (changedPaths told tnew).length) :=
  ⟨by decide, groppy_C3 envOk repoX _ 2 (by decide)⟩

/-- C5.  When the working-tree status (untracked included, ignored
excluded) is non-empty, the task ends Unclean, the unclean counter is
incremented (and updated is not), and the repository state is completely
untouched — in particular no fetch happened, because the clean check at
src/main.rs line 112 precedes the fetch at line 140. -/
theorem groppy_C5 (st : Stats) (t : Task)
    (hopen : t.env.openOk = true) (hst : t.env.statusOk = true)
    (hdirty : is_repo_clean t.repo = false) :
    (runTask st t).snd.outcome = Outcome.unclean ∧
    (runTask st t).snd.final = t.repo ∧
    (runTask st t).fst.unclean = st.unclean + 1 ∧
    (runTask st t).fst.updated = st.updated := by
  have hrepo : update_repo t.env t.repo = (Outcome.unclean, t.repo) := by
    unfold is_repo_clean at hdirty
    simp [update_repo, hopen, hst, hdirty]
  refine ⟨?_, ?_, ?_, ?_⟩ <;> simp [runTask, hrepo]

set_option maxHeartbeats 1600000 in
/-- Witness for C5: a repository with exactly one untracked file and no
other changes takes the Unclean path with no side effects. -/
theorem groppy_C5_witness :
    statusList repoDirty = ["untracked.txt"] ∧
    ((runTask (Stats.new 1) taskDirtyX).snd.outcome = Outcome.unclean ∧
     (runTask (Stats.new 1) taskDirtyX).snd.final = taskDirtyX.repo ∧
     (runTask (Stats.new 1) taskDirtyX).fst.unclean = (Stats.new 1).unclean + 1 ∧
     (runTask (Stats.new 1) taskDirtyX).fst.updated = (Stats.new 1).updated) :=
  ⟨by decide, groppy_C5 (Stats.new 1) taskDirtyX rfl rfl (by decide)⟩

/-- C4, amended.  Every per-task failure is caught at the task boundary
and is non-fatal: the engine processes every queued task no matter what
the outcomes are; an Error outcome is logged with the repository path and
the underlying cause; and a failure of every fallible step becomes an
Error outcome — except a failure of the `branch_upstream_name` lookup
itself, which `.ok()` (src/main.rs lines 148-150) collapses into the
silent NoUpstream return, indistinguishable from a branch with no
configured upstream. -/
theorem groppy_C4 :
    (∀ ts : List Task, (runEngine ts).snd.length = ts.length) ∧
    (∀ (st : Stats) (t : Task) (d : String),
      (runTask st t).snd.outcome = Outcome.error d →
      ("Error updating " ++ t.path ++ ": " ++ d) ∈ (runTask st t).snd.lines) ∧
    (∀ (env : GitEnv) (s : RepoState) (m : String),
      env.openOk = true → env.statusOk = true → is_repo_clean s = true →
      (lookupTree s.commits s.headOid).isSome = true → env.findRemoteOk = true →
      env.fetchOk = true → s.branchName.isSome = true →
      env.upstream = UpstreamRes.errOther m →
      (update_repo env s).fst = Outcome.noUpstream) := by
  refine ⟨fun ts => runFrom_snd_length _ ts, ?_, ?_⟩
  · intro st t d h
    have hout : (update_repo t.env t.repo).fst = Outcome.error d := h
    simp [runTask, taskLines, hout]
  · intro env s m h1 h2 h3 h4 h5 h6 h7 h8
    obtain ⟨tr, htr⟩ := Option.isSome_iff_exists.mp h4
    obtain ⟨bn, hbn⟩ := Option.isSome_iff_exists.mp h7
    unfold is_repo_clean at h3
    simp [update_repo, h1, h2, h3, h5, h6, h8, htr, hbn]

set_option maxHeartbeats 1600000 in
/-- Counterexample to C4 as stated: a failure of the upstream-name lookup
(an error that is not the no-upstream ENOTFOUND, for example an invalid
upstream configuration) is NOT converted to an Error outcome and is not
logged — the task silently takes the NoUpstream path. -/
theorem groppy_C4_counterexample :
    (runTask (Stats.new 1) taskUpstreamErr).snd.outcome = Outcome.noUpstream ∧
    (runTask (Stats.new 1) taskUpstreamErr).snd.lines = [] := by
  exact ⟨by decide, by decide⟩

set_option maxHeartbeats 1600000 in
/-- Witness for C4: the amended theorem applied to a two-task run that
contains an open failure — both tasks are processed, the failure is
logged — and to a concrete upstream-lookup failure. -/
theorem groppy_C4_witness :
    (runEngine [taskOkX, taskOpenFail]).snd.length = [taskOkX, taskOpenFail].length ∧
    ("Error updating " ++ taskOpenFail.path ++ ": " ++ openFailMsg) ∈
      (runTask (Stats.new 1) taskOpenFail).snd.lines ∧
    (update_repo envUpstreamErr repoX).fst = Outcome.noUpstream :=
  ⟨groppy_C4.1 [taskOkX, taskOpenFail],
   groppy_C4.2.1 (Stats.new 1) taskOpenFail openFailMsg (by decide),
   groppy_C4.2.2 envUpstreamErr repoX "invalid upstream configuration" rfl rfl (by decide)
     (by decide) rfl rfl (by decide) rfl⟩

/-- Helper for C6: a clean, fetchable repository whose upstream resolves
to the commit HEAD already points at takes the UpToDate path, changing
only the fetch-written remote-tracking state. -/
theorem secondRun_task (t : Task) (h : readyForSecondRun t) :
    update_repo t.env t.repo =
      (Outcome.upToDate, { t.repo with fetched := some t.env.remoteHead }) := by
  obtain ⟨h1, h2, h3, h4, h5, h6, h7, h8⟩ := h
  obtain ⟨tr, htr⟩ := Option.isSome_iff_exists.mp h4
  obtain ⟨bn, hbn⟩ := Option.isSome_iff_exists.mp h7
  unfold is_repo_clean at h3
  simp [update_repo, h1, h2, h3, h5, h6, h8, htr, hbn]

/-- Helper for C6 lifted to a whole run. -/
theorem runFrom_secondRun (st : Stats) (ts : List Task)
    (h : ∀ t ∈ ts, readyForSecondRun t) :
    (runFrom st ts).fst.updated = st.updated ∧
    (runFrom st ts).fst.unclean = st.unclean ∧
    (runFrom st ts).snd.map StepOut.outcome = List.replicate ts.length Outcome.upToDate := by
  induction ts generalizing st with
  | nil => exact ⟨rfl, rfl, rfl⟩
  | cons t ts ih =>
    have ht := secondRun_task t (h t (List.mem_cons_self t ts))
    have hrest := ih (runTask st t).fst (fun x hx => h x (List.mem_cons_of_mem t hx))
    have hup : (runTask st t).fst.updated = st.updated := by simp [runTask, ht]
    have hun : (runTask st t).fst.unclean = st.unclean := by simp [runTask, ht]
    have hout : (runTask st t).snd.outcome = Outcome.upToDate := by simp [runTask, ht]
    refine ⟨?_, ?_, ?_⟩
    · simp only [runFrom]
      rw [hrest.1, hup]
    · simp only [runFrom]
      rw [hrest.2.1, hun]
    · simp only [runFrom, List.map_cons, List.length_cons]
      rw [hout, hrest.2.2]
      rfl

/-- C6.  A second run over repositories already fast-forwarded by a first
run (no intervening local edits or remote changes: clean working tree,
upstream resolving to the commit HEAD already points at, all external
calls succeeding) produces only UpToDate outcomes, with `updated = 0` and
`unclean = 0`. -/
theorem groppy_C6 (ts : List Task) (h : ∀ t ∈ ts, readyForSecondRun t) :
    (runEngine ts).fst.updated = 0 ∧
    (runEngine ts).fst.unclean = 0 ∧
    (runEngine ts).snd.map StepOut.outcome = List.replicate ts.length Outcome.upToDate := by
  have := runFrom_secondRun (Stats.new ts.length) ts h
  simpa [runEngine, Stats.new] using this

set_option maxHeartbeats 1600000 in
/-- Witness for C6: a concrete one-task second run. -/
theorem groppy_C6_witness :
    (∀ t ∈ [taskUpToDate], readyForSecondRun t) ∧
    ((runEngine [taskUpToDate]).fst.updated = 0 ∧
     (runEngine [taskUpToDate]).fst.unclean = 0 ∧
     (runEngine [taskUpToDate]).snd.map StepOut.outcome =
       List.replicate [taskUpToDate].length Outcome.upToDate) :=
  ⟨by decide, groppy_C6 [taskUpToDate] (by decide)⟩

/-- Helper for C7: `find_repos` is the concatenation of each input
directory's contribution. -/
theorem find_repos_aux (fs : FS) (dirs : List String) (acc : List String) :
    dirs.foldl
      (fun repos dir =>
        if fs.entries.contains dir = false then repos
        else
          let repos1 := if is_git_repo fs dir then repos ++ [dir] else repos
          match read_dir fs dir with
          | some es => repos1 ++ es.filter (fun p => fs.isDirectory p && is_git_repo fs p)
          | none => repos1)
      acc = acc ++ dirs.flatMap (repos_of_dir fs) := by
  induction dirs generalizing acc with
  | nil => simp
  | cons d dirs ih =>
    rw [List.foldl_cons, ih]
    have hstep :
        (if fs.entries.contains d = false then acc
          else
            let repos1 := if is_git_repo fs d then acc ++ [d] else acc
            match read_dir fs d with
            | some es => repos1 ++ es.filter (fun p => fs.isDirectory p && is_git_repo fs p)
            | none => repos1) = acc ++ repos_of_dir fs d := by
      unfold repos_of_dir read_dir
      cases hc : fs.entries.contains d
      · simp
      · cases hd : fs.isDirectory d
        · simp only [Bool.false_eq_true, if_false, if_true]
          split_ifs <;> simp
        · simp only [Bool.false_eq_true, if_false, if_true]
          split_ifs <;> simp
    rw [hstep, List.flatMap_cons, List.append_assoc]

/-- Helper for C7: `find_repos` as a bind. -/
theorem find_repos_eq_bind (fs : FS) (dirs : List String) :
    find_repos fs dirs = dirs.flatMap (repos_of_dir fs) := by
  have := find_repos_aux fs dirs []
  simpa [find_repos] using this

/-- Helper for C7: membership in a single directory's contribution. -/
theorem mem_repos_of_dir (fs : FS) (d p : String) :
    p ∈ repos_of_dir fs d ↔
      fs.entries.contains d = true ∧
      ((p = d ∧ is_git_repo fs d = true) ∨
       (fs.isDirectory d = true ∧ p ∈ fs.childList d ∧ fs.isDirectory p = true ∧
        is_git_repo fs p = true)) := by
  unfold repos_of_dir read_dir
  cases hc : fs.entries.contains d
  · simp
  · cases hd : fs.isDirectory d
    · simp only [Bool.false_eq_true, if_false, if_true]
      split_ifs with hg <;> simp_all
    · simp only [Bool.false_eq_true, if_false, if_true]
      split_ifs with hg <;>
        simp_all [List.mem_append, List.mem_filter, Bool.and_eq_true]

/-- C7.  Discovery tests each existing input directory itself and scans
its immediate children only (one level, no recursion), silently skipping
non-existent inputs; in the concrete scenario with inputs `[A, B]` where
`A` is a repository root and `B` has a repository child `B/x` and a
non-repository child `B/y`, the discovered list is exactly `[A, B/x]`,
and a non-existent third input `C` changes nothing. -/
theorem groppy_C7 :
    (∀ (fs : FS) (dirs : List String) (p : String),
      p ∈ find_repos fs dirs ↔
        ∃ d, d ∈ dirs ∧ fs.entries.contains d = true ∧
          ((p = d ∧ is_git_repo fs d = true) ∨
           (fs.isDirectory d = true ∧ p ∈ fs.childList d ∧ fs.isDirectory p = true ∧
            is_git_repo fs p = true))) ∧
    find_repos fsDemo ["A", "B"] = ["A", "B/x"] ∧
    find_repos fsDemo ["A", "B", "C"] = ["A", "B/x"] := by
  refine ⟨?_, by decide, by decide⟩
  intro fs dirs p
  rw [find_repos_eq_bind]
  simp only [List.mem_flatMap, mem_repos_of_dir]

/-- Witness for C7: the characterization instantiated at the scenario
filesystem recovers membership of `A`. -/
theorem groppy_C7_witness :
    "A" ∈ find_repos fsDemo ["A", "B"] :=
  (groppy_C7.1 fsDemo ["A", "B"] "A").mpr
    ⟨"A", by decide, by decide, Or.inl ⟨rfl, by decide⟩⟩

/-- Helper for C9: the outcome a worker-loop iteration reports is exactly
the state machine's result on the task's own oracle and repository. -/
theorem runTask_outcome (st : Stats) (t : Task) :
    (runTask st t).snd.outcome = (update_repo t.env t.repo).fst := by
  simp [runTask]

/-- C9.  A task's outcome is a function of its own oracle and repository
state alone — it does not depend on the shared counters — so the engine's
outcome list is the pointwise image of the task list, and any two
processing orders that are permutations of each other (as induced by any
worker count and any scheduling) produce the same multiset of outcomes. -/
theorem groppy_C9 :
    (∀ (st₁ st₂ : Stats) (t : Task),
      (runTask st₁ t).snd.outcome = (runTask st₂ t).snd.outcome) ∧
    (∀ ts : List Task, (runEngine ts).snd.map StepOut.outcome =
      ts.map (fun t => (update_repo t.env t.repo).fst)) ∧
    (∀ ts₁ ts₂ : List Task, ts₁.Perm ts₂ →
      Multiset.ofList ((runEngine ts₁).snd.map StepOut.outcome) =
      Multiset.ofList ((runEngine ts₂).snd.map StepOut.outcome)) := by
  refine ⟨fun st₁ st₂ t => by rw [runTask_outcome, runTask_outcome],
    fun ts => runFrom_outcomes _ ts, ?_⟩
  intro ts₁ ts₂ hperm
  have h1 : (runEngine ts₁).snd.map StepOut.outcome =
      ts₁.map (fun t => (update_repo t.env t.repo).fst) := runFrom_outcomes _ ts₁
  have h2 : (runEngine ts₂).snd.map StepOut.outcome =
      ts₂.map (fun t => (update_repo t.env t.repo).fst) := runFrom_outcomes _ ts₂
  rw [h1, h2]
  exact Multiset.coe_eq_coe.mpr (hperm.map _)

/-- Witness for C9: two orderings of the same two tasks give the same
outcome multiset. -/
theorem groppy_C9_witness :
    List.Perm [taskOkX, taskDirtyX] [taskDirtyX, taskOkX] ∧
    Multiset.ofList ((runEngine [taskOkX, taskDirtyX]).snd.map StepOut.outcome) =
      Multiset.ofList ((runEngine [taskDirtyX, taskOkX]).snd.map StepOut.outcome) :=
  ⟨List.Perm.swap taskDirtyX taskOkX [],
   groppy_C9.2.2 [taskOkX, taskDirtyX] [taskDirtyX, taskOkX]
     (List.Perm.swap taskDirtyX taskOkX [])⟩

/-- C10.  A directory qualifies as a repository root exactly when it
directly contains an entry named `.git`, with no inspection of that
entry's kind (the `isDirectory` component of the filesystem is irrelevant
to `is_git_repo`) and no validation of its contents; the engine counts
every task in `total`, and a task whose metadata cannot be opened still
increments `checked` and ends as an Error at the open step, its
repository untouched. -/
theorem groppy_C10 :
    (∀ (fs : FS) (d : String → Bool) (p : String),
      is_git_repo { entries := fs.entries, isDirectory := d, childList := fs.childList } p =
        is_git_repo fs p) ∧
    (∀ ts : List Task, (runEngine ts).fst.total = ts.length) ∧
    (∀ (st : Stats) (t : Task), t.env.openOk = false →
      (runTask st t).fst.checked = st.checked + 1 ∧
      (runTask st t).snd.outcome = Outcome.error openFailMsg ∧
      (runTask st t).snd.final = t.repo) := by
  refine ⟨fun fs d p => rfl, ?_, ?_⟩
  · intro ts
    simpa [runEngine, Stats.new] using runFrom_fst_total (Stats.new ts.length) ts
  · intro st t h
    have hrepo : update_repo t.env t.repo = (Outcome.error openFailMsg, t.repo) := by
      simp [update_repo, h]
    exact ⟨runTask_fst_checked st t, by simp [runTask, hrepo], by simp [runTask, hrepo]⟩

set_option maxHeartbeats 1600000 in
/-- Witness for C10: a concrete unopenable task is counted and errors at
the open step. -/
theorem groppy_C10_witness :
    taskOpenFail.env.openOk = false ∧
    ((runTask (Stats.new 1) taskOpenFail).fst.checked = (Stats.new 1).checked + 1 ∧
     (runTask (Stats.new 1) taskOpenFail).snd.outcome = Outcome.error openFailMsg ∧
     (runTask (Stats.new 1) taskOpenFail).snd.final = taskOpenFail.repo) :=
  ⟨rfl, groppy_C10.2.2 (Stats.new 1) taskOpenFail rfl⟩

end Groppy
